import Mathlib

/-!
# Verification of the clem-analyse realtime analysis pipeline

A shallow embedding, in Lean 4, of the concurrent facial-analysis pipeline of
the `clem-analyse` repository: the realtime health-score aggregation
(`realtime_analysis.py`), the shared frame slot, the bounded trend histories,
the trend classifier (`health_analyzer.py`), the background persistence flusher
(`data_storage.py`), and the one-shot capture session machinery and scoring
(`complete_health_analyzer.py`).  Numeric values are modelled as rationals
(Python floats are treated as exact arithmetic); Python's `round(x, 1)` is
modelled as round-half-to-even at one decimal place.
-/

/-! ## Python-style rounding helpers -/

/-- Python's `int()` truncation toward zero, on rationals. -/
def pyTrunc (q : ℚ) : ℤ := if q < 0 then -⌊-q⌋ else ⌊q⌋

/-- Round-half-to-even to the nearest integer, as Python's `round` does on
exact values. -/
def pyRoundEven (q : ℚ) : ℤ :=
  let f := ⌊q⌋
  let r := q - f
  if r < 1/2 then f
  else if 1/2 < r then f + 1
  else if f % 2 = 0 then f else f + 1

/-- Python's `round(x, 1)`: round to one decimal place, half to even. -/
def round1 (q : ℚ) : ℚ := (pyRoundEven (10 * q) : ℚ) / 10

lemma pyRoundEven_ge_floor (q : ℚ) : ⌊q⌋ ≤ pyRoundEven q := by
  unfold pyRoundEven
  dsimp only
  split
  · exact le_refl _
  · split
    · omega
    · split <;> omega

lemma pyRoundEven_le_floor_add_one (q : ℚ) : pyRoundEven q ≤ ⌊q⌋ + 1 := by
  unfold pyRoundEven
  dsimp only
  split
  · omega
  · split
    · omega
    · split <;> omega

lemma round1_ge (q : ℚ) (n : ℤ) (h : (n : ℚ) ≤ q) : (n : ℚ) ≤ round1 q := by
  unfold round1
  have h10 : (10 * n : ℤ) ≤ ⌊10 * q⌋ := by
    rw [Int.le_floor]
    push_cast
    linarith
  have := pyRoundEven_ge_floor (10 * q)
  have hle : (10 * n : ℤ) ≤ pyRoundEven (10 * q) := le_trans h10 this
  have : ((10 * n : ℤ) : ℚ) ≤ (pyRoundEven (10 * q) : ℚ) := by exact_mod_cast hle
  push_cast at this
  linarith

lemma round1_le (q : ℚ) (n : ℤ) (h : q < n) : round1 q ≤ (n : ℚ) := by
  unfold round1
  have hfl : ⌊10 * q⌋ ≤ 10 * n - 1 := by
    have : ⌊10 * q⌋ < 10 * n := by
      rw [Int.floor_lt]
      push_cast
      linarith
    omega
  have := pyRoundEven_le_floor_add_one (10 * q)
  have hle : pyRoundEven (10 * q) ≤ 10 * n := by omega
  have : ((pyRoundEven (10 * q) : ℤ) : ℚ) ≤ ((10 * n : ℤ) : ℚ) := by exact_mod_cast hle
  push_cast at this
  linarith

/-! ## Realtime health-score aggregation

Embedding of `RealtimeFacialAnalyzer._calculate_health_score`
(`src/realtime_analysis.py`, lines 403-457).  The `health_data` dictionary is
modelled by a record of optional fields, one per scored metric; a `none` field
is a key absent from the dictionary. -/

/-- The fields of the latest `health_data` dictionary that
`_calculate_health_score` inspects. -/
structure HealthData where
  facial_symmetry : Option ℚ
  eyes_level_symmetry : Option ℚ
  eye_fatigue : Option String
  skin_texture : Option ℚ
  golden_ratio_harmony : Option ℚ

/-- `fatigue_map.get(fatigue, 0.5)` of `_calculate_health_score`:
`{"Minimal": 0.1, "Mild": 0.3, "Moderate": 0.6, "Severe": 0.9}`. -/
def fatigue_map_get (fatigue : String) : ℚ :=
  if fatigue = "Minimal" then 1/10
  else if fatigue = "Mild" then 3/10
  else if fatigue = "Moderate" then 3/5
  else if fatigue = "Severe" then 9/10
  else 1/2

/-- The `(score, components)` accumulation of `_calculate_health_score`:
each present metric adds its 0-10 sub-score to `score` and `1` to
`components`. -/
def calculate_health_score_aux (health : HealthData) : ℚ × ℕ :=
  let s : ℚ := 0
  let c : ℕ := 0
  let (s, c) := match health.facial_symmetry with
    | some symmetry => (s + min 10 (symmetry * (111/10)), c + 1)
    | none => (s, c)
  let (s, c) := match health.eyes_level_symmetry with
    | some eye_sym => (s + min 10 (eye_sym * (25/2)), c + 1)
    | none => (s, c)
  let (s, c) := match health.eye_fatigue with
    | some fatigue => (s + (1 - fatigue_map_get fatigue) * 10, c + 1)
    | none => (s, c)
  let (s, c) := match health.skin_texture with
    | some texture => (s + max 0 (min 1 ((40 - texture) / 35)) * 10, c + 1)
    | none => (s, c)
  let (s, c) := match health.golden_ratio_harmony with
    | some harmony => (s + harmony * 10, c + 1)
    | none => (s, c)
  (s, c)

/-- `score / max(1, components)` — the aggregate before the final
`round(·, 1)`. -/
def calculate_health_score_raw (health : HealthData) : ℚ :=
  (calculate_health_score_aux health).1 /
    ((max 1 (calculate_health_score_aux health).2 : ℕ) : ℚ)

/-- `self.overall_health_score = round(score / max(1, components), 1)`. -/
def calculate_health_score (health : HealthData) : ℚ :=
  round1 (calculate_health_score_raw health)

/-- The five metrics scored by `_calculate_health_score`, in evaluation
order. -/
inductive RtMetric
  | facialSymmetry
  | eyesLevelSymmetry
  | eyeFatigue
  | skinTexture
  | goldenRatioHarmony
deriving DecidableEq

def rtMetricList : List RtMetric :=
  [.facialSymmetry, .eyesLevelSymmetry, .eyeFatigue, .skinTexture,
   .goldenRatioHarmony]

/-- The 0-10 sub-score each metric contributes when present (`none` when the
metric is absent from the dictionary). -/
def rtSubscore (health : HealthData) : RtMetric → Option ℚ
  | .facialSymmetry =>
      health.facial_symmetry.map (fun symmetry => min 10 (symmetry * (111/10)))
  | .eyesLevelSymmetry =>
      health.eyes_level_symmetry.map (fun eye_sym => min 10 (eye_sym * (25/2)))
  | .eyeFatigue =>
      health.eye_fatigue.map (fun fatigue => (1 - fatigue_map_get fatigue) * 10)
  | .skinTexture =>
      health.skin_texture.map
        (fun texture => max 0 (min 1 ((40 - texture) / 35)) * 10)
  | .goldenRatioHarmony =>
      health.golden_ratio_harmony.map (fun harmony => harmony * 10)

/-- The sub-scores of exactly the metrics present in `health`. -/
def presentSubscores (health : HealthData) : List ℚ :=
  rtMetricList.filterMap (rtSubscore health)

/-- Spec-side definition: the weighted mean, under a weight table `w`, over
exactly the metrics present in `health` — an absent metric contributes
neither to the numerator nor to the denominator. -/
def wMeanOverPresent (w : RtMetric → ℚ) (health : HealthData) : ℚ :=
  (rtMetricList.filterMap
      (fun m => (rtSubscore health m).map (fun s => w m * s))).sum /
  (rtMetricList.filterMap
      (fun m => (rtSubscore health m).map (fun _ => w m))).sum

set_option maxHeartbeats 2000000 in
/-- C1: for every `health_data` dictionary missing any subset of the scored
metrics but containing at least one of them, the aggregate computed by
`_calculate_health_score` is the mean over exactly the present metrics:
an absent metric contributes neither to the numerator nor to the divisor,
and is never counted as a zero value.  The stored score is that mean rounded
to one decimal. -/
theorem health_score_is_mean_over_present_metrics (health : HealthData)
    (hp : presentSubscores health ≠ []) :
    calculate_health_score_raw health =
      (presentSubscores health).sum / ((presentSubscores health).length : ℚ) ∧
    calculate_health_score health =
      round1 ((presentSubscores health).sum /
        ((presentSubscores health).length : ℚ)) := by
  have hraw : calculate_health_score_raw health =
      (presentSubscores health).sum / ((presentSubscores health).length : ℚ) := by
    obtain ⟨fs, es, ef, st, gh⟩ := health
    cases fs <;> cases es <;> cases ef <;> cases st <;> cases gh <;>
      simp_all [presentSubscores, rtMetricList, rtSubscore,
        calculate_health_score_raw, calculate_health_score_aux] <;>
      try ring
  exact ⟨hraw, by rw [calculate_health_score, hraw]⟩

/-- Witness for C1 at a concrete dictionary containing only facial symmetry
(0.9) and skin texture (40). -/
theorem health_score_is_mean_over_present_metrics_witness :
    presentSubscores ⟨some (9/10), none, none, some 40, none⟩ ≠ [] ∧
    calculate_health_score_raw ⟨some (9/10), none, none, some 40, none⟩ =
      (presentSubscores ⟨some (9/10), none, none, some 40, none⟩).sum /
        ((presentSubscores ⟨some (9/10), none, none, some 40, none⟩).length :
          ℚ) :=
  ⟨by simp [presentSubscores, rtMetricList, rtSubscore],
   (health_score_is_mean_over_present_metrics _
      (by simp [presentSubscores, rtMetricList, rtSubscore])).1⟩

/-! ## Shared frame slot

Embedding of the mutex-guarded `current_frame` handoff between
`_display_loop` (`src/realtime_analysis.py`, lines 526-541), which publishes
`self.current_frame = frame` under `self.lock`, and `_processing_worker`
(lines 162-169), which under the same lock either copies the current frame or
— when it is still `None` — idles and retries.  The mutex makes each
operation atomic, so a concurrent execution is a linear sequence of
operations on the slot. -/

/-- An atomic operation on the shared frame slot. -/
inductive SlotOp (F : Type)
  | publish (frame : F)
  | takeLatest

/-- The slot contents after a linearised sequence of operations, starting
from the initial `None`: a publish overwrites unconditionally, a take does
not modify the slot. -/
def slotAfter {F : Type} (ops : List (SlotOp F)) : Option F :=
  ops.foldl
    (fun slot op =>
      match op with
      | .publish frame => some frame
      | .takeLatest => slot)
    none

/-- `takeLatest`: the worker's read of the slot — a copy of the current
frame, or `none` (triggering an idle retry) when nothing was published. -/
def takeLatest {F : Type} (slot : Option F) : Option F := slot

/-- The frames published by a sequence of slot operations, in order. -/
def publishedFrames {F : Type} (ops : List (SlotOp F)) : List F :=
  ops.filterMap
    (fun op =>
      match op with
      | .publish frame => some frame
      | .takeLatest => none)

lemma slotAfter_append_publish {F : Type} (ops : List (SlotOp F)) (f : F) :
    slotAfter (ops ++ [.publish f]) = some f := by
  simp [slotAfter]

lemma slotAfter_eq_getLast {F : Type} (ops : List (SlotOp F)) :
    slotAfter ops = (publishedFrames ops).getLast? := by
  induction ops using List.reverseRecOn with
  | nil => rfl
  | append_singleton ops op ih =>
      cases op with
      | publish f => simp [slotAfter, publishedFrames, List.getLast?_append]
      | takeLatest =>
          simpa [slotAfter, publishedFrames, List.foldl_append] using ih

/-- C2: for every linearised sequence of publish and take operations on the
shared frame slot, `takeLatest` returns exactly the frame written by the last
completed publish before the call — never an older one — and returns `none`
(the idle-retry case) precisely when no frame has been published yet. -/
theorem frame_slot_most_recent_wins {F : Type} (ops : List (SlotOp F)) :
    takeLatest (slotAfter ops) = (publishedFrames ops).getLast? ∧
    (takeLatest (slotAfter ops) = none ↔ publishedFrames ops = []) := by
  refine ⟨slotAfter_eq_getLast ops, ?_⟩
  rw [takeLatest, slotAfter_eq_getLast ops, List.getLast?_eq_none_iff]

/-! ## Bounded trend histories (HistoryWindow)

Embedding of the two per-metric bounded-history updates:
`RealtimeFacialAnalyzer._update_health_tracking`
(`src/realtime_analysis.py`, lines 382-395), which appends and then keeps the
slice `[-30:]`, and `HealthAnalyzer._update_history`
(`src/health_analyzer.py`, lines 456-494), which appends and then `pop(0)`s
while over capacity. -/

/-- One append in `_update_health_tracking`:
`self.health_trends[key].append(value)` followed by
`self.health_trends[key] = self.health_trends[key][-30:]` when the length
exceeds 30. -/
def health_trends_push (l : List ℚ) (value : ℚ) : List ℚ :=
  let l' := l ++ [value]
  if 30 < l'.length then l'.drop (l'.length - 30) else l'

/-- One append in `_update_history`: `self.history[...].append(...)` followed
by `self.history[...].pop(0)` when the length exceeds
`self.history_max_size = 30`. -/
def update_history_push (l : List ℚ) (value : ℚ) : List ℚ :=
  let l' := l ++ [value]
  if 30 < l'.length then l'.drop 1 else l'

lemma health_trends_push_eq_drop (l : List ℚ) (v : ℚ) (h : l.length ≤ 30) :
    health_trends_push l v = (l ++ [v]).drop ((l ++ [v]).length - 30) := by
  unfold health_trends_push
  dsimp only
  split
  · rfl
  · have : (l ++ [v]).length - 30 = 0 := by simp at *; omega
    rw [this, List.drop_zero]

lemma update_history_push_eq_drop (l : List ℚ) (v : ℚ) (h : l.length ≤ 30) :
    update_history_push l v = (l ++ [v]).drop ((l ++ [v]).length - 30) := by
  unfold update_history_push
  dsimp only
  split
  · congr 1
    simp at *
    omega
  · have : (l ++ [v]).length - 30 = 0 := by simp at *; omega
    rw [this, List.drop_zero]

lemma window_fold_eq_drop (push : List ℚ → ℚ → List ℚ)
    (hpush : ∀ l v, l.length ≤ 30 →
      push l v = (l ++ [v]).drop ((l ++ [v]).length - 30)) :
    ∀ (vs l : List ℚ), l.length ≤ 30 →
      vs.foldl push l = (l ++ vs).drop ((l ++ vs).length - 30)
  | [], l, h => by
      simp only [List.foldl_nil, List.append_nil]
      have : l.length - 30 = 0 := by omega
      rw [this, List.drop_zero]
  | v :: vs, l, h => by
      rw [List.foldl_cons, hpush l v h]
      have hlen : ((l ++ [v]).drop ((l ++ [v]).length - 30)).length ≤ 30 := by
        simp <;> omega
      rw [window_fold_eq_drop push hpush vs _ hlen]
      have hd : (l ++ [v]).length - 30 ≤ (l ++ [v]).length := by omega
      rw [← List.drop_append_of_le_length hd, List.drop_drop]
      have hx : l ++ [v] ++ vs = l ++ v :: vs := by simp
      rw [hx]
      congr 1
      simp [List.length_drop]
      omega

/-- C5: each per-metric history window, under either update routine, holds
after any sequence of appends exactly the most recent `min(n, 30)` appended
values in arrival order — the capacity 30 is never exceeded and the oldest
entry is evicted first. -/
theorem history_window_capacity_fifo (vs : List ℚ) :
    vs.foldl health_trends_push [] = vs.drop (vs.length - 30) ∧
    vs.foldl update_history_push [] = vs.drop (vs.length - 30) ∧
    (vs.foldl health_trends_push []).length ≤ 30 ∧
    (vs.foldl update_history_push []).length ≤ 30 := by
  have h1 := window_fold_eq_drop health_trends_push health_trends_push_eq_drop
    vs [] (by simp)
  have h2 := window_fold_eq_drop update_history_push update_history_push_eq_drop
    vs [] (by simp)
  simp only [List.nil_append] at h1 h2
  refine ⟨h1, h2, ?_, ?_⟩
  · rw [h1]
    simp <;> omega
  · rw [h2]
    simp <;> omega

/-! ## Persistence queue and flusher

Embedding of `DataStorage.queue_data_for_saving` and one iteration of the
background loop `DataStorage._background_save_worker`
(`src/data_storage.py`, lines 189-225): drain the queue into the local
`accumulated_data`, then — if the save interval has elapsed since
`last_save_time` and the accumulator is non-empty — attempt `save`; a
successful save clears the accumulator, a failed one (exception) leaves it
intact; in either case `last_save_time` is reset. -/

/-- The flusher-visible state: the pending `data_queue` contents, the local
`accumulated_data`, and `last_save_time`. -/
structure FlushState (R : Type) where
  queue : List R
  accumulated_data : List R
  last_save_time : ℚ

/-- `queue_data_for_saving`: non-blocking append to the unbounded queue. -/
def queue_data_for_saving {R : Type} (s : FlushState R) (data : R) :
    FlushState R :=
  { s with queue := s.queue ++ [data] }

/-- One iteration of `_background_save_worker`.  `current_time` is the clock
reading, `saveOk` tells whether the `self.save` call would succeed or raise.
Returns the new state together with the attempted save call, if any, as
`(records handed to save, success)`. -/
def background_save_tick {R : Type} (save_interval : ℚ) (s : FlushState R)
    (current_time : ℚ) (saveOk : Bool) :
    FlushState R × Option (List R × Bool) :=
  let accumulated := s.accumulated_data ++ s.queue
  if save_interval ≤ current_time - s.last_save_time ∧ accumulated.isEmpty = false then
    if saveOk then
      (⟨[], [], current_time⟩, some (accumulated, true))
    else
      (⟨[], accumulated, current_time⟩, some (accumulated, false))
  else
    (⟨[], accumulated, s.last_save_time⟩, none)

lemma foldl_queue_data {R : Type} (new : List R) (s : FlushState R) :
    new.foldl queue_data_for_saving s =
      ⟨s.queue ++ new, s.accumulated_data, s.last_save_time⟩ := by
  induction new generalizing s with
  | nil => simp
  | cons r rs ih => simp [queue_data_for_saving, ih]

/-- C3: when a save attempt fails, the accumulator keeps every record, and
the next successful flush persists the union of the previously accumulated
records and everything enqueued since the failure — not just the new
records. -/
theorem flusher_retains_records_on_failed_save {R : Type} (interval : ℚ)
    (s : FlushState R) (t1 t2 : ℚ) (new : List R)
    (h1 : interval ≤ t1 - s.last_save_time)
    (hne : s.accumulated_data ++ s.queue ≠ [])
    (h2 : interval ≤ t2 - t1) :
    (background_save_tick interval s t1 false).2 =
      some (s.accumulated_data ++ s.queue, false) ∧
    ((background_save_tick interval s t1 false).1).accumulated_data =
      s.accumulated_data ++ s.queue ∧
    (background_save_tick interval
        (new.foldl queue_data_for_saving
          (background_save_tick interval s t1 false).1)
        t2 true).2 =
      some ((s.accumulated_data ++ s.queue) ++ new, true) := by
  have hfail : background_save_tick interval s t1 false =
      (⟨[], s.accumulated_data ++ s.queue, t1⟩,
       some (s.accumulated_data ++ s.queue, false)) := by
    simp only [background_save_tick]
    rw [if_pos ⟨h1, List.isEmpty_eq_false.mpr hne⟩]
    simp
  refine ⟨by rw [hfail], by rw [hfail], ?_⟩
  rw [hfail]
  rw [foldl_queue_data]
  simp only [background_save_tick]
  have hne2 : ((s.accumulated_data ++ s.queue) : List R) ++ ([] ++ new) ≠ [] := by
    simp only [List.nil_append]
    intro hcon
    exact hne (List.append_eq_nil.mp hcon).1
  rw [if_pos ⟨by simpa using h2,
    List.isEmpty_eq_false.mpr (by simpa using hne2)⟩]
  simp

/-- Witness for C3: two records accumulated, a failed save at `t = 10`, one
new record, then a successful save at `t = 20` persisting all three. -/
theorem flusher_retains_records_on_failed_save_witness :
    (background_save_tick 5 (⟨[2], [1], 0⟩ : FlushState ℕ) 10 false).2 =
      some ([1, 2], false) ∧
    ((background_save_tick 5 (⟨[2], [1], 0⟩ : FlushState ℕ) 10 false).1).accumulated_data
      = [1, 2] ∧
    (background_save_tick 5
        ([3].foldl queue_data_for_saving
          (background_save_tick 5 (⟨[2], [1], 0⟩ : FlushState ℕ) 10 false).1)
        20 true).2 = some ([1, 2, 3], true) := by
  have := flusher_retains_records_on_failed_save (R := ℕ) 5 ⟨[2], [1], 0⟩ 10 20
    [3] (by norm_num) (by simp) (by norm_num)
  simpa using this

/-- C9: three records enqueued within one flush interval and a tick past the
interval produce exactly one save call carrying all three records and an
emptied accumulator; a further tick with nothing newly enqueued produces no
save call at all — in general a save is attempted only when the interval has
elapsed and the accumulator is non-empty, and a successful flush clears it. -/
theorem flusher_one_save_with_all_records {R : Type} (interval : ℚ)
    (r1 r2 r3 : R) (t0 t1 : ℚ) (h1 : interval ≤ t1 - t0) :
    (background_save_tick interval
        ([r1, r2, r3].foldl queue_data_for_saving ⟨[], [], t0⟩) t1 true).2 =
      some ([r1, r2, r3], true) ∧
    (background_save_tick interval
        ([r1, r2, r3].foldl queue_data_for_saving ⟨[], [], t0⟩) t1 true).1 =
      ⟨[], [], t1⟩ ∧
    (∀ (t2 : ℚ) (ok : Bool),
      (background_save_tick interval (⟨[], [], t1⟩ : FlushState R) t2 ok).2 =
        none) ∧
    (∀ (s : FlushState R) (t : ℚ) (ok : Bool),
      (background_save_tick interval s t ok).2 ≠ none →
        interval ≤ t - s.last_save_time ∧
        s.accumulated_data ++ s.queue ≠ []) := by
  rw [foldl_queue_data]
  have hstep : background_save_tick interval
      (⟨[] ++ [r1, r2, r3], [], t0⟩ : FlushState R) t1 true =
      (⟨[], [], t1⟩, some ([r1, r2, r3], true)) := by
    simp only [background_save_tick]
    rw [if_pos ⟨by simpa using h1, by simp⟩]
    simp
  refine ⟨by rw [hstep], by rw [hstep], ?_, ?_⟩
  · intro t2 ok
    simp only [background_save_tick]
    rw [if_neg (by simp)]
  · intro s t ok
    simp only [background_save_tick]
    split
    · rename_i hcond
      intro _
      exact ⟨hcond.1, List.isEmpty_eq_false.mp hcond.2⟩
    · intro hcon
      exact absurd rfl hcon

/-- Witness for C9 at interval 5, records 1, 2, 3 and times 0 and 7. -/
theorem flusher_one_save_with_all_records_witness :
    (background_save_tick 5
        ([1, 2, 3].foldl queue_data_for_saving (⟨[], [], 0⟩ : FlushState ℕ))
        7 true).2 = some ([1, 2, 3], true) ∧
    (background_save_tick 5 (⟨[], [], 7⟩ : FlushState ℕ) 20 true).2 = none :=
  ⟨(flusher_one_save_with_all_records 5 1 2 3 0 7 (by norm_num)).1,
   (flusher_one_save_with_all_records 5 1 2 3 0 7 (by norm_num)).2.2.1 20 true⟩

/-! ## Trend classification

Embedding of `HealthAnalyzer._analyze_trends` (`src/health_analyzer.py`,
lines 496-521) over the analyzer's `self.history` state.  `np.mean` is the
arithmetic mean; the comparison `np.std(xs) > 0.1` is modelled as
`variance xs > 0.01`, which is exactly equivalent since both sides of the
original comparison are non-negative. -/

/-- `np.mean` of a list of rationals. -/
def npMean (l : List ℚ) : ℚ := l.sum / (l.length : ℚ)

/-- The (population, `ddof=0`) variance underlying `np.std`. -/
def npVariance (l : List ℚ) : ℚ :=
  ((l.map (fun x => (x - npMean l) ^ 2)).sum) / (l.length : ℚ)

/-- The `self.history` dictionary of `HealthAnalyzer`: per-metric value
lists (`skin_data` entries are `(texture, note)` points). -/
structure AnalyzerHistory where
  facial_symmetry : List ℚ
  eye_fatigue : List ℚ
  facial_fullness : List ℚ
  skin_data : List (Option ℚ × Option String)

/-- The `trend_data` dictionary built by `_analyze_trends`: at most these two
keys are ever inserted. -/
structure TrendData where
  eye_fatigue_trend : Option String
  symmetry_stability : Option String

/-- `_analyze_trends`: the eye-fatigue history (when it holds at least 10
samples) is classified by comparing the mean of the last 5 samples with the
mean of the first 5 retained; the facial-symmetry history (when it holds at
least 10 samples) is classified by its standard deviation. -/
def analyze_trends (h : AnalyzerHistory) : TrendData :=
  let eye_fatigue_trend :=
    if 10 ≤ h.eye_fatigue.length then
      let recent_fatigue := npMean (h.eye_fatigue.drop (h.eye_fatigue.length - 5))
      let earlier_fatigue := npMean (h.eye_fatigue.take 5)
      let fatigue_change := recent_fatigue - earlier_fatigue
      some (if 1/5 < fatigue_change then "Increasing (consider rest)"
            else if fatigue_change < -(1/5) then "Decreasing (improving)"
            else "Stable")
    else none
  let symmetry_stability :=
    if 10 ≤ h.facial_symmetry.length then
      some (if 1/100 < npVariance h.facial_symmetry then "Variable"
            else "Stable")
    else none
  ⟨eye_fatigue_trend, symmetry_stability⟩

/-- The three trend classes named by the specification. -/
inductive Trend
  | increasing
  | decreasing
  | stable
deriving DecidableEq

/-- Spec-side definition of the mean-shift classifier: compare the mean of
the most recent 5 samples against the mean of the earliest 5 retained;
Increasing above +0.2, Decreasing below -0.2, else Stable. -/
def meanShiftTrend (l : List ℚ) : Trend :=
  let change := npMean (l.drop (l.length - 5)) - npMean (l.take 5)
  if 1/5 < change then .increasing
  else if change < -(1/5) then .decreasing
  else .stable

/-- The label `_analyze_trends` emits for each trend class. -/
def trendLabel : Trend → String
  | .increasing => "Increasing (consider rest)"
  | .decreasing => "Decreasing (improving)"
  | .stable => "Stable"

/-- Reading a trend class back out of a string stored in `trend_data`
(`"Variable"` and anything else is not a trend classification). -/
def parseTrendLabel (s : String) : Option Trend :=
  if s = "Increasing (consider rest)" then some .increasing
  else if s = "Decreasing (improving)" then some .decreasing
  else if s = "Stable" then some .stable
  else none

/-- The numeric metric histories tracked in `self.history`. -/
inductive TrackedMetric
  | facialSymmetry
  | eyeFatigue
  | facialFullness
deriving DecidableEq

def historyOf (h : AnalyzerHistory) : TrackedMetric → List ℚ
  | .facialSymmetry => h.facial_symmetry
  | .eyeFatigue => h.eye_fatigue
  | .facialFullness => h.facial_fullness

/-- Where (if anywhere) `trend_data` records a classification of each
tracked metric's history. -/
def trendOutputFor (td : TrendData) : TrackedMetric → Option String
  | .facialSymmetry => td.symmetry_stability
  | .eyeFatigue => td.eye_fatigue_trend
  | .facialFullness => none

/-- A facial-symmetry history of five samples at 0.1 followed by five at
0.5. -/
def symmetryRampHistory : AnalyzerHistory :=
  ⟨List.replicate 5 (1/10) ++ List.replicate 5 (1/2), [], [], []⟩

/-- Counterexample to C4 as stated: the claim quantifies over every metric
history, but `_analyze_trends` applies the mean-shift classifier only to the
eye-fatigue history.  For a facial-symmetry history of 5 samples at 0.1
followed by 5 at 0.5 (10 samples, mean shift +0.4) the claim demands an
Increasing classification, yet the code emits only the std-based stability
label `"Variable"` — no trend classification at all. -/
theorem trend_classifier_only_eye_fatigue_counterexample :
    10 ≤ (historyOf symmetryRampHistory .facialSymmetry).length ∧
    meanShiftTrend (historyOf symmetryRampHistory .facialSymmetry) =
      .increasing ∧
    trendOutputFor (analyze_trends symmetryRampHistory) .facialSymmetry =
      some "Variable" ∧
    ¬ ((trendOutputFor (analyze_trends symmetryRampHistory)
          .facialSymmetry).bind parseTrendLabel =
        some (meanShiftTrend (historyOf symmetryRampHistory
          .facialSymmetry))) := by
  have hvar : trendOutputFor (analyze_trends symmetryRampHistory)
      .facialSymmetry = some "Variable" := by
    norm_num [trendOutputFor, analyze_trends, symmetryRampHistory,
      npVariance, npMean, List.replicate]
  have hms : meanShiftTrend (historyOf symmetryRampHistory .facialSymmetry) =
      .increasing := by
    norm_num [historyOf, symmetryRampHistory, meanShiftTrend, npMean,
      List.replicate]
  refine ⟨by norm_num [historyOf, symmetryRampHistory], hms, hvar, ?_⟩
  rw [hvar, hms]
  simp [parseTrendLabel]

/-- C4 (amended): the mean-shift two-window classifier is applied only to
the eye-fatigue history.  For any eye-fatigue history of at least 10
samples, `_analyze_trends` emits exactly the mean-shift classification
(most-recent-5 mean minus earliest-5 mean; Increasing above +0.2, Decreasing
below -0.2, else Stable); in particular 10 identical values give Stable,
five values at 0.1 followed by five at 0.5 give Increasing, and the reverse
gives Decreasing. -/
theorem eye_fatigue_trend_is_mean_shift :
    (∀ h : AnalyzerHistory, 10 ≤ h.eye_fatigue.length →
      (analyze_trends h).eye_fatigue_trend =
        some (trendLabel (meanShiftTrend h.eye_fatigue))) ∧
    (∀ v : ℚ,
      (analyze_trends ⟨[], List.replicate 10 v, [], []⟩).eye_fatigue_trend =
        some "Stable") ∧
    (analyze_trends ⟨[], List.replicate 5 (1/10) ++ List.replicate 5 (1/2),
        [], []⟩).eye_fatigue_trend = some "Increasing (consider rest)" ∧
    (analyze_trends ⟨[], List.replicate 5 (1/2) ++ List.replicate 5 (1/10),
        [], []⟩).eye_fatigue_trend = some "Decreasing (improving)" := by
  have hmain : ∀ h : AnalyzerHistory, 10 ≤ h.eye_fatigue.length →
      (analyze_trends h).eye_fatigue_trend =
        some (trendLabel (meanShiftTrend h.eye_fatigue)) := by
    intro h hlen
    simp only [analyze_trends, meanShiftTrend]
    rw [if_pos hlen]
    split_ifs <;> simp [trendLabel]
  refine ⟨hmain, ?_, ?_, ?_⟩
  · intro v
    have hst : meanShiftTrend (List.replicate 10 v) = .stable := by
      unfold meanShiftTrend
      have hdrop : (List.replicate 10 v).drop ((List.replicate 10 v : List ℚ).length - 5) =
          List.replicate 5 v := by
        simp [List.drop_replicate]
      have htake : (List.replicate 10 v).take 5 = List.replicate 5 v := by
        simp [List.take_replicate]
      rw [hdrop, htake]
      have hz : npMean (List.replicate 5 v) - npMean (List.replicate 5 v) = 0 := by
        ring
      rw [hz]
      norm_num
    rw [hmain _ (by simp)]
    dsimp only
    rw [hst]
    rfl
  · have hinc : meanShiftTrend (List.replicate 5 (1/10) ++ List.replicate 5 (1/2)) =
        .increasing := by
      norm_num [meanShiftTrend, npMean, List.replicate]
    rw [hmain _ (by simp)]
    dsimp only
    rw [hinc]
    rfl
  · have hdec : meanShiftTrend (List.replicate 5 (1/2) ++ List.replicate 5 (1/10)) =
        .decreasing := by
      norm_num [meanShiftTrend, npMean, List.replicate]
    rw [hmain _ (by simp)]
    dsimp only
    rw [hdec]
    rfl

/-- Witness for (the general part of) C4 amended, at the concrete ramp
history. -/
theorem eye_fatigue_trend_is_mean_shift_witness :
    (10:ℕ) ≤ (List.replicate 5 ((1:ℚ)/10) ++ List.replicate 5 (1/2)).length ∧
    (analyze_trends ⟨[], List.replicate 5 (1/10) ++ List.replicate 5 (1/2),
        [], []⟩).eye_fatigue_trend =
      some (trendLabel (meanShiftTrend
        (List.replicate 5 (1/10) ++ List.replicate 5 (1/2)))) :=
  ⟨by simp,
   eye_fatigue_trend_is_mean_shift.1
     ⟨[], List.replicate 5 (1/10) ++ List.replicate 5 (1/2), [], []⟩
     (by simp)⟩

/-! ## Countdown capture: best-frame selection and state machine

Embedding of the interactive loop
`CompleteHealthAnalyzer._run_facial_analysis`
(`src/complete_health_analyzer.py`, lines 100-307).  Frames are abstracted to
identifiers; each loop iteration consumes one input carrying the captured
frame, the regions returned by the detector, the pressed key, and the clock
reading. -/

/-- A detected region: an axis-aligned box `(x, y, w, h)`. -/
abbrev Box := ℕ × ℕ × ℕ × ℕ

/-- `face[2] * face[3]` — the area of a box. -/
def boxArea (b : Box) : ℕ := b.2.2.1 * b.2.2.2

/-- Python's `max(faces, key=lambda face: face[2] * face[3])`: the first box
of maximal area; `none` on an empty list (where the code never calls it). -/
def pyMaxBy (faces : List Box) : Option Box :=
  faces.foldl
    (fun acc b =>
      match acc with
      | none => some b
      | some a => if boxArea a < boxArea b then some b else some a)
    none

/-- The countdown best-frame update (lines 258-266): when the frame has
detected regions, its largest region replaces the retained best exactly when
its area strictly exceeds the retained region's area. -/
def updateBest (best : Option (ℕ × Box)) (frameId : ℕ) (faces : List Box) :
    Option (ℕ × Box) :=
  match pyMaxBy faces with
  | none => best
  | some largest_face =>
    match best with
    | none => some (frameId, largest_face)
    | some (bf, bb) =>
        if boxArea bb < boxArea largest_face then some (frameId, largest_face)
        else some (bf, bb)

/-- One observed frame of the countdown window: its identifier and the
regions the detector returned for it. -/
abbrev FrameObs := ℕ × List Box

/-- Spec-side: the area of a frame's largest detected region. -/
def largest_region_area (faces : List Box) : ℕ :=
  (faces.map boxArea).foldl max 0

/-- Spec-side: a frame's candidate `(frame, largest-region area)`, or `none`
if the frame has no detected region. -/
def frameCandidate (w : FrameObs) : Option (ℕ × ℕ) :=
  match w.2 with
  | [] => none
  | _ => some (w.1, largest_region_area w.2)

/-- Spec-side: the candidates of the frames of a countdown window. -/
def windowCandidates (ws : List FrameObs) : List (ℕ × ℕ) :=
  ws.filterMap frameCandidate

/-- The largest value of `Prod.snd` over a candidate list. -/
def maxSnd (cs : List (ℕ × ℕ)) : ℕ := (cs.map Prod.snd).foldl max 0

/-- Spec-side: the maximal largest-region area over the window. -/
def bestWindowArea (ws : List FrameObs) : ℕ := maxSnd (windowCandidates ws)

/-- Spec-side definition of the claim: the first frame of the window whose
largest detected region attains the maximal area over all frames seen,
paired with that area (earlier frames win ties). -/
def specBestFrame (ws : List FrameObs) : Option (ℕ × ℕ) :=
  (windowCandidates ws).find? (fun c => decide (c.2 = bestWindowArea ws))

/-- Folding the source's `updateBest` over the window, starting from no
retained frame (as at arming). -/
def foldBest (ws : List FrameObs) : Option (ℕ × Box) :=
  ws.foldl (fun best w => updateBest best w.1 w.2) none

/-- The `(frame, area)` view of a retained best. -/
def bestFA (best : Option (ℕ × Box)) : Option (ℕ × ℕ) :=
  best.map (fun p => (p.1, boxArea p.2))

/-- The projection of `updateBest` onto `(frame, area)` pairs. -/
def bestFAStep (a : Option (ℕ × ℕ)) (c : ℕ × ℕ) : Option (ℕ × ℕ) :=
  match a with
  | none => some c
  | some x => if x.2 < c.2 then some c else some x

lemma pyMaxBy_some_aux (l : List Box) (a : Box) :
    ∃ c, l.foldl
        (fun acc b =>
          match acc with
          | none => some b
          | some a => if boxArea a < boxArea b then some b else some a)
        (some a) = some c ∧
      boxArea c = l.foldl (fun m b => max m (boxArea b)) (boxArea a) := by
  induction l generalizing a with
  | nil => exact ⟨a, rfl, rfl⟩
  | cons b l ih =>
      simp only [List.foldl_cons]
      by_cases hab : boxArea a < boxArea b
      · rw [if_pos hab]
        obtain ⟨c, hc, harea⟩ := ih b
        exact ⟨c, hc, by rw [harea]; congr 1; omega⟩
      · rw [if_neg hab]
        obtain ⟨c, hc, harea⟩ := ih a
        exact ⟨c, hc, by rw [harea]; congr 1; omega⟩

lemma pyMaxBy_nil_iff (l : List Box) : pyMaxBy l = none ↔ l = [] := by
  cases l with
  | nil => simp [pyMaxBy]
  | cons b l =>
      simp only [pyMaxBy, List.foldl_cons]
      obtain ⟨c, hc, _⟩ := pyMaxBy_some_aux l b
      simp [hc]

lemma pyMaxBy_area (l : List Box) (c : Box) (h : pyMaxBy l = some c) :
    boxArea c = largest_region_area l := by
  cases l with
  | nil => simp [pyMaxBy] at h
  | cons b l =>
      simp only [pyMaxBy, List.foldl_cons] at h
      obtain ⟨c', hc', harea⟩ := pyMaxBy_some_aux l b
      rw [hc'] at h
      cases h
      rw [harea, largest_region_area, List.map_cons, List.foldl_cons,
        List.foldl_map]
      congr 1
      omega

lemma bestFA_updateBest (best : Option (ℕ × Box)) (f : ℕ) (faces : List Box) :
    bestFA (updateBest best f faces) =
      match frameCandidate (f, faces) with
      | none => bestFA best
      | some c => bestFAStep (bestFA best) c := by
  cases hm : pyMaxBy faces with
  | none =>
      have hnil : faces = [] := (pyMaxBy_nil_iff faces).mp hm
      subst hnil
      simp [updateBest, frameCandidate, pyMaxBy]
  | some largest_face =>
      have hne : faces ≠ [] := by
        intro hcon
        rw [hcon] at hm
        simp [pyMaxBy] at hm
      have harea := pyMaxBy_area faces largest_face hm
      have hfc : frameCandidate (f, faces) = some (f, largest_region_area faces) := by
        unfold frameCandidate
        cases faces with
        | nil => exact absurd rfl hne
        | cons b l => rfl
      rw [hfc]
      cases best with
      | none => simp [updateBest, hm, bestFA, bestFAStep, harea]
      | some p =>
          obtain ⟨bf, bb⟩ := p
          rw [← harea]
          by_cases hlt : boxArea bb < boxArea largest_face
          · simp [updateBest, hm, bestFA, bestFAStep, hlt]
          · simp [updateBest, hm, bestFA, bestFAStep, hlt]

lemma bestFA_foldBest_aux (ws : List FrameObs) :
    ∀ best : Option (ℕ × Box),
      bestFA (ws.foldl (fun b w => updateBest b w.1 w.2) best) =
        (windowCandidates ws).foldl bestFAStep (bestFA best) := by
  induction ws with
  | nil => intro best; rfl
  | cons w ws ih =>
      intro best
      rw [List.foldl_cons, ih]
      simp only [windowCandidates, List.filterMap_cons]
      rw [bestFA_updateBest best w.1 w.2]
      cases frameCandidate (w.1, w.2) <;> simp

lemma foldl_max_pull (l : List ℕ) : ∀ a b : ℕ,
    l.foldl max (max a b) = max a (l.foldl max b) := by
  induction l with
  | nil => intro a b; rfl
  | cons c l ih =>
      intro a b
      rw [List.foldl_cons, List.foldl_cons, max_assoc, ih]

lemma maxSnd_cons (c : ℕ × ℕ) (cs : List (ℕ × ℕ)) :
    maxSnd (c :: cs) = max c.2 (maxSnd cs) := by
  unfold maxSnd
  rw [List.map_cons, List.foldl_cons]
  have : max 0 c.2 = max c.2 0 := by omega
  rw [this, foldl_max_pull]

lemma foldl_bestFAStep_some (cs : List (ℕ × ℕ)) : ∀ x : ℕ × ℕ,
    cs.foldl bestFAStep (some x) =
      if x.2 < maxSnd cs then cs.find? (fun c => decide (c.2 = maxSnd cs))
      else some x := by
  induction cs with
  | nil =>
      intro x
      have : ¬ x.2 < maxSnd [] := by
        simp [maxSnd]
      rw [if_neg this]
      rfl
  | cons c cs ih =>
      intro x
      rw [List.foldl_cons, maxSnd_cons]
      simp only [bestFAStep]
      by_cases hxc : x.2 < c.2
      · rw [if_pos hxc, ih c]
        by_cases hcm : c.2 < maxSnd cs
        · have hmax : max c.2 (maxSnd cs) = maxSnd cs :=
            max_eq_right (le_of_lt hcm)
          rw [hmax, if_pos hcm, if_pos (lt_trans hxc hcm)]
          rw [List.find?_cons_of_neg _ (by simp; omega)]
        · have hmax : max c.2 (maxSnd cs) = c.2 :=
            max_eq_left (le_of_not_lt hcm)
          rw [hmax, if_neg hcm, if_pos hxc]
          rw [List.find?_cons_of_pos _ (by simp)]
      · rw [if_neg hxc, ih x]
        by_cases hxm : x.2 < maxSnd cs
        · have hcx : c.2 ≤ x.2 := le_of_not_lt hxc
          have hmax : max c.2 (maxSnd cs) = maxSnd cs :=
            max_eq_right (by omega)
          rw [hmax, if_pos hxm, if_pos hxm]
          rw [List.find?_cons_of_neg _ (by simp; omega)]
        · have hxmax : ¬ x.2 < max c.2 (maxSnd cs) := by
            rcases le_or_lt (maxSnd cs) c.2 with h | h
            · rw [max_eq_left h]
              omega
            · rw [max_eq_right (le_of_lt h)]
              omega
          rw [if_neg hxm, if_neg hxmax]

lemma foldl_bestFAStep_none (cs : List (ℕ × ℕ)) :
    cs.foldl bestFAStep none =
      cs.find? (fun c => decide (c.2 = maxSnd cs)) := by
  cases cs with
  | nil => rfl
  | cons c cs =>
      rw [List.foldl_cons]
      show cs.foldl bestFAStep (some c) = _
      rw [foldl_bestFAStep_some cs c, maxSnd_cons]
      by_cases hcm : c.2 < maxSnd cs
      · have hmax : max c.2 (maxSnd cs) = maxSnd cs :=
          max_eq_right (le_of_lt hcm)
        rw [hmax, if_pos hcm]
        rw [List.find?_cons_of_neg _ (by simp; omega)]
      · have hmax : max c.2 (maxSnd cs) = c.2 :=
          max_eq_left (le_of_not_lt hcm)
        rw [hmax, if_neg hcm]
        rw [List.find?_cons_of_pos _ (by simp)]

/-- C8: folding the countdown's replace-if-strictly-larger update over any
sequence of observed frames retains exactly the first frame whose largest
detected region attains the maximal area among all frames seen (ties keep
the earlier frame, faceless frames are skipped), paired with that maximal
area — not the most recent frame. -/
theorem countdown_best_frame_is_first_max_area (ws : List FrameObs) :
    bestFA (foldBest ws) = specBestFrame ws := by
  rw [foldBest, bestFA_foldBest_aux ws none]
  show (windowCandidates ws).foldl bestFAStep none = _
  rw [foldl_bestFAStep_none]
  rfl

/-! ## Countdown capture state machine

One loop iteration of `_run_facial_analysis` as a step function.  In the
source, `countdown_start is None` is the idle mode; pressing SPACE while a
face is detected arms the countdown (retaining that frame and its largest
face); during the countdown each frame may replace the retained best
(`updateBest`); when `3 - int(time.time() - countdown_start) <= 0` the loop
breaks — analysing the retained best frame when there is one, otherwise
printing `"Analysis failed: No good face detected"` and producing nothing.
`q` breaks the loop in any mode.  The stored result exists only when the
loop broke through the successful-analysis path. -/

/-- The key observed by `cv2.waitKey` in one iteration. -/
inductive FKey
  | space
  | quit
  | other

/-- One loop iteration's inputs: the captured frame, the detector's regions
for it, the pressed key, and the clock reading. -/
structure FInput where
  frame : ℕ
  faces : List Box
  key : FKey
  now : ℚ

/-- The loop state: `countdown_start` and the retained best
`(frame, face)`. -/
structure FState where
  countdown_start : Option ℚ
  best : Option (ℕ × Box)

/-- How a loop iteration ends: `break` with an analysed best frame, `break`
with the no-face failure message, or `break` on `q`. -/
inductive FHalt
  | captured (best : ℕ × Box)
  | noFaceFailure
  | userQuit
deriving DecidableEq

/-- The result of one loop iteration: continue with a new state, or break. -/
inductive FStepRes
  | next (s : FState)
  | halt (h : FHalt)

/-- One iteration of the `_run_facial_analysis` loop. -/
def facialStep (s : FState) (i : FInput) : FStepRes :=
  match s.countdown_start with
  | some countdown_start =>
      if 3 - pyTrunc (i.now - countdown_start) ≤ 0 then
        match s.best with
        | some best => .halt (.captured best)
        | none => .halt .noFaceFailure
      else
        match i.key with
        | .quit => .halt .userQuit
        | _ => .next ⟨s.countdown_start, updateBest s.best i.frame i.faces⟩
  | none =>
      match i.key with
      | .quit => .halt .userQuit
      | .space =>
          match pyMaxBy i.faces with
          | some largest_face => .next ⟨some i.now, some (i.frame, largest_face)⟩
          | none => .next s
      | .other => .next s

/-- How a whole run of the loop ends (`ranOut`: the input trace was
exhausted with the loop still going). -/
inductive FOutcome
  | ranOut
  | ended (h : FHalt)
deriving DecidableEq

/-- Running the loop over a trace of iteration inputs. -/
def facialRun : FState → List FInput → FOutcome
  | _, [] => .ranOut
  | s, i :: is =>
      match facialStep s i with
      | .next s' => facialRun s' is
      | .halt h => .ended h

/-- The analysis result stored in `self.facial_analysis_result` after the
loop: present only when the loop broke through the successful-analysis
path. -/
def storedResult : FOutcome → Option (ℕ × Box)
  | .ended (.captured best) => some best
  | _ => none

/-- Whether the run printed the `"Analysis failed: No good face detected"`
failure. -/
def failureReported : FOutcome → Bool
  | .ended .noFaceFailure => true
  | _ => false

/-- Whether a step result continues the loop in the idle mode
(`countdown_start is None`), i.e. "transitions back to Idle". -/
def isIdleNext : FStepRes → Bool
  | .next s => s.countdown_start.isNone
  | .halt _ => false

/-- Counterexample to C7 as stated: from an armed countdown with no retained
best frame, the elapse iteration does report the failure and stores no
result, but it does not transition back to Idle — it breaks out of the
capture loop (a terminal end, like a quit), so no new countdown can be
triggered in this session. -/
theorem countdown_failure_terminates_counterexample :
    facialStep ⟨some 0, none⟩ ⟨0, [], .other, 3⟩ = .halt .noFaceFailure ∧
    isIdleNext (facialStep ⟨some 0, none⟩ ⟨0, [], .other, 3⟩) = false ∧
    storedResult (.ended .noFaceFailure) = none ∧
    failureReported (.ended .noFaceFailure) = true := by
  have hstep : facialStep ⟨some 0, none⟩ ⟨0, [], .other, 3⟩ =
      .halt .noFaceFailure := by
    have htr : pyTrunc ((3:ℚ) - 0) = 3 := by
      norm_num [pyTrunc]
    simp only [facialStep]
    rw [if_pos (by rw [htr]; norm_num)]
  exact ⟨hstep, by rw [hstep]; rfl, rfl, rfl⟩

lemma updateBest_isSome (p : ℕ × Box) (f : ℕ) (faces : List Box) :
    (updateBest (some p) f faces).isSome := by
  unfold updateBest
  cases pyMaxBy faces with
  | none => rfl
  | some largest_face =>
      obtain ⟨bf, bb⟩ := p
      dsimp only
      split <;> rfl

lemma facialStep_inv (s : FState) (i : FInput)
    (hinv : s.countdown_start = none ∨ s.best.isSome) :
    (∀ s', facialStep s i = .next s' →
      (s'.countdown_start = none ∨ s'.best.isSome)) ∧
    (∀ h, facialStep s i = .halt h → h ≠ FHalt.noFaceFailure) := by
  obtain ⟨cs, b⟩ := s
  obtain ⟨f, faces, k, now⟩ := i
  cases cs with
  | none =>
      constructor
      · intro s' hs'
        simp only [facialStep] at hs'
        cases k with
        | space =>
            cases hp : pyMaxBy faces with
            | some largest_face =>
                rw [hp] at hs'
                cases hs'
                right
                rfl
            | none =>
                rw [hp] at hs'
                cases hs'
                left
                rfl
        | quit => simp at hs'
        | other =>
            cases hs'
            left
            rfl
      · intro h hh
        simp only [facialStep] at hh
        cases k with
        | space => cases hp : pyMaxBy faces <;> rw [hp] at hh <;> simp at hh
        | quit =>
            cases hh
            simp
        | other => simp at hh
  | some countdown_start =>
      have hb : b.isSome := by
        rcases hinv with h | h
        · exact absurd h (by simp)
        · exact h
      obtain ⟨p, rfl⟩ : ∃ p, b = some p := by
        cases b with
        | none => simp at hb
        | some p => exact ⟨p, rfl⟩
      constructor
      · intro s' hs'
        simp only [facialStep] at hs'
        split at hs'
        · simp at hs'
        · cases k with
          | quit => simp at hs'
          | space =>
              cases hs'
              right
              exact updateBest_isSome p f faces
          | other =>
              cases hs'
              right
              exact updateBest_isSome p f faces
      · intro h hh
        simp only [facialStep] at hh
        split at hh
        · cases hh
          simp
        · cases k with
          | quit =>
              cases hh
              simp
          | space => simp at hh
          | other => simp at hh

lemma facialRun_no_noFace : ∀ (inputs : List FInput) (s : FState),
    (s.countdown_start = none ∨ s.best.isSome) →
    facialRun s inputs ≠ .ended .noFaceFailure
  | [], s, _ => by
      simp [facialRun]
  | i :: is, s, hinv => by
      rw [facialRun]
      cases hstep : facialStep s i with
      | next s' =>
          exact facialRun_no_noFace is s' ((facialStep_inv s i hinv).1 s' hstep)
      | halt h =>
          have hne := (facialStep_inv s i hinv).2 h hstep
          simp [hne]

/-- C7 (amended): if the countdown elapses with no retained best frame, the
loop reports the failure, produces and stores no analysis result, and breaks
out of the capture loop (a terminal end — it does not return to Idle);
moreover, from the initial idle state this situation is unreachable: arming
requires a detected face, which is immediately retained as best, so no real
run of the loop ever ends in the no-face failure. -/
theorem countdown_no_face_produces_no_result :
    (∀ (countdown_start : ℚ) (i : FInput),
      3 - pyTrunc (i.now - countdown_start) ≤ 0 →
      facialStep ⟨some countdown_start, none⟩ i = .halt .noFaceFailure) ∧
    storedResult (.ended .noFaceFailure) = none ∧
    failureReported (.ended .noFaceFailure) = true ∧
    (∀ inputs : List FInput,
      facialRun ⟨none, none⟩ inputs ≠ .ended .noFaceFailure) := by
  refine ⟨?_, rfl, rfl, ?_⟩
  · intro t0 i h
    simp only [facialStep]
    rw [if_pos h]
  · intro inputs
    exact facialRun_no_noFace inputs ⟨none, none⟩ (Or.inl rfl)

/-- Witness for C7 amended at the concrete elapse input. -/
theorem countdown_no_face_produces_no_result_witness :
    3 - pyTrunc (((3:ℚ)) - 0) ≤ 0 ∧
    facialStep ⟨some 0, none⟩ ⟨0, [], .other, 3⟩ = .halt .noFaceFailure := by
  have htr : pyTrunc ((3:ℚ) - 0) = 3 := by norm_num [pyTrunc]
  exact ⟨by rw [htr]; norm_num,
    countdown_no_face_produces_no_result.1 0 ⟨0, [], .other, 3⟩
      (by rw [htr]; norm_num)⟩

/-! ## One-shot session scoring

Embedding of the score computation performed at countdown completion in
`_run_facial_analysis` (`src/complete_health_analyzer.py`, lines 143-217):
a weighted accumulation over the present indicators (facial symmetry weight
2.5, eye-level symmetry 1.5, skin texture 1.0, eye fatigue 1.0, estimated
stress 1.0), a random fallback when no indicator is present, division by
`max(1, components)`, `round(·, 1)`, and the five status bands.  The random
draw `np.random.rand()` is passed in as a parameter `r ∈ [0, 1)`. -/

/-- The fields of `health_data` inspected by the session scoring;
`estimated_stress_level` is a sub-dictionary whose `value` key may itself be
missing (`.get('value', 15)`). -/
structure SessionHealth where
  facial_symmetry : Option ℚ
  eyes_level_symmetry : Option ℚ
  skin_texture : Option ℚ
  eye_fatigue : Option String
  estimated_stress_level : Option (Option ℚ)

/-- The eye-fatigue sub-score of the session scorer: default 0.8, `"Low"` 1.0,
`"Moderate"` 0.7, `"High"` 0.4. -/
def session_fatigue_score (fatigue : String) : ℚ :=
  if fatigue = "Low" then 1
  else if fatigue = "Moderate" then 7/10
  else if fatigue = "High" then 2/5
  else 4/5

/-- The `(score, components)` accumulation of the session scorer: each
present indicator adds `subscore * 10 * weight` to `score` and its weight to
`components`. -/
def session_score_aux (health : SessionHealth) : ℚ × ℚ :=
  let s : ℚ := 0
  let c : ℚ := 0
  let (s, c) := match health.facial_symmetry with
    | some v => (s + v * 10 * (5/2), c + 5/2)
    | none => (s, c)
  let (s, c) := match health.eyes_level_symmetry with
    | some v => (s + v * 10 * (3/2), c + 3/2)
    | none => (s, c)
  let (s, c) := match health.skin_texture with
    | some texture => (s + max 0 (1 - texture / 100) * 10 * 1, c + 1)
    | none => (s, c)
  let (s, c) := match health.eye_fatigue with
    | some fatigue => (s + session_fatigue_score fatigue * 10 * 1, c + 1)
    | none => (s, c)
  let (s, c) := match health.estimated_stress_level with
    | some stress =>
        (s + max 0 (1 - (stress.getD 15 - 5) / 20) * 10 * 1, c + 1)
    | none => (s, c)
  (s, c)

/-- Lines 190-202: when `components == 0` the score is replaced by
`70 + np.random.rand() * 20` with a single component; the result is
`score / max(1, components)` (before rounding). -/
def session_score_raw (health : SessionHealth) (r : ℚ) : ℚ :=
  let score := (session_score_aux health).1
  let components := (session_score_aux health).2
  let score' := if components = 0 then 70 + r * 20 else score
  let components' := if components = 0 then 1 else components
  score' / max 1 components'

/-- `health_score = round(score / max(1, components), 1)`. -/
def session_health_score (health : SessionHealth) (r : ℚ) : ℚ :=
  round1 (session_score_raw health r)

/-- The five ordered status bands (lines 204-214). -/
def health_status_of (health_score : ℚ) : String :=
  if 85/10 ≤ health_score then "Excellent"
  else if 7 ≤ health_score then "Good"
  else if 55/10 ≤ health_score then "Fair"
  else if 4 ≤ health_score then "Concerning"
  else "Poor"

/-- The five indicators weighed by the session scorer, in evaluation
order. -/
inductive SessMetric
  | facialSymmetry
  | eyesLevelSymmetry
  | skinTexture
  | eyeFatigue
  | estimatedStressLevel
deriving DecidableEq

def sessMetricList : List SessMetric :=
  [.facialSymmetry, .eyesLevelSymmetry, .skinTexture, .eyeFatigue,
   .estimatedStressLevel]

/-- The session scorer's per-indicator weight table. -/
def session_weight : SessMetric → ℚ
  | .facialSymmetry => 5/2
  | .eyesLevelSymmetry => 3/2
  | .skinTexture => 1
  | .eyeFatigue => 1
  | .estimatedStressLevel => 1

/-- The 0-10 sub-score each session indicator contributes when present. -/
def sessSubscore (health : SessionHealth) : SessMetric → Option ℚ
  | .facialSymmetry => health.facial_symmetry.map (fun v => v * 10)
  | .eyesLevelSymmetry => health.eyes_level_symmetry.map (fun v => v * 10)
  | .skinTexture =>
      health.skin_texture.map (fun texture => max 0 (1 - texture / 100) * 10)
  | .eyeFatigue =>
      health.eye_fatigue.map (fun fatigue => session_fatigue_score fatigue * 10)
  | .estimatedStressLevel =>
      health.estimated_stress_level.map
        (fun stress => max 0 (1 - (stress.getD 15 - 5) / 20) * 10)

/-- Spec-side: the weighted mean over the present session indicators. -/
def sessWMean (w : SessMetric → ℚ) (health : SessionHealth) : ℚ :=
  (sessMetricList.filterMap
      (fun m => (sessSubscore health m).map (fun s => w m * s))).sum /
  (sessMetricList.filterMap
      (fun m => (sessSubscore health m).map (fun _ => w m))).sum

/-- The strictly ordered weight table asserted by the claim: symmetry above
eye-level symmetry above fatigue above texture above golden-ratio harmony. -/
def strictOrderedWeights (w : RtMetric → ℚ) : Prop :=
  w .facialSymmetry > w .eyesLevelSymmetry ∧
  w .eyesLevelSymmetry > w .eyeFatigue ∧
  w .eyeFatigue > w .skinTexture ∧
  w .skinTexture > w .goldenRatioHarmony

/-- Counterexample to C6 as stated: no strictly ordered weight table
(symmetry > eye-level > fatigue > texture > harmony) can represent the
Analysis Worker's aggregate, because `_calculate_health_score` gives eye
fatigue and skin texture identical influence: on a dictionary containing
only eye fatigue `"Minimal"` (sub-score 9) and skin texture 40 (sub-score 0)
the code yields 9/2, which forces any representing weight table to satisfy
`w(fatigue) = w(texture)`. -/
theorem no_strictly_ordered_weight_table :
    ¬ ∃ w : RtMetric → ℚ, strictOrderedWeights w ∧
      ∀ health : HealthData,
        calculate_health_score_raw health = wMeanOverPresent w health := by
  rintro ⟨w, hw, heq⟩
  have h1 := heq ⟨none, none, some "Minimal", some 40, none⟩
  have hlhs : calculate_health_score_raw
      ⟨none, none, some "Minimal", some 40, none⟩ = 9/2 := by
    norm_num [calculate_health_score_raw, calculate_health_score_aux,
      fatigue_map_get, max_def, min_def]
  have hrhs : wMeanOverPresent w ⟨none, none, some "Minimal", some 40, none⟩ =
      w .eyeFatigue * 9 / (w .eyeFatigue + w .skinTexture) := by
    norm_num [wMeanOverPresent, rtMetricList, rtSubscore, fatigue_map_get,
      max_def, min_def, List.filterMap_cons]
  rw [hlhs, hrhs] at h1
  rcases eq_or_ne (w .eyeFatigue + w .skinTexture) 0 with hz | hz
  · rw [hz, div_zero] at h1
    norm_num at h1
  · rw [eq_div_iff hz] at h1
    have heqw : w .eyeFatigue = w .skinTexture := by linarith
    have hlt := hw.2.2.1
    rw [heqw] at hlt
    exact lt_irrefl _ hlt

set_option maxHeartbeats 4000000 in
lemma session_aux_eq (health : SessionHealth) :
    (session_score_aux health).1 =
      (sessMetricList.filterMap
        (fun m => (sessSubscore health m).map
          (fun s => session_weight m * s))).sum ∧
    (session_score_aux health).2 =
      (sessMetricList.filterMap
        (fun m => (sessSubscore health m).map
          (fun _ => session_weight m))).sum := by
  obtain ⟨fs, es, st, ef, sl⟩ := health
  refine ⟨?_, ?_⟩ <;>
    (cases fs <;> cases es <;> cases st <;> cases ef <;> cases sl <;>
      simp [session_score_aux, sessMetricList, sessSubscore,
        session_weight] <;>
      try ring)

set_option maxHeartbeats 2000000 in
lemma session_components_ge_one (health : SessionHealth)
    (hc : (session_score_aux health).2 ≠ 0) :
    1 ≤ (session_score_aux health).2 := by
  obtain ⟨fs, es, st, ef, sl⟩ := health
  cases fs <;> cases es <;> cases st <;> cases ef <;> cases sl <;>
    simp_all [session_score_aux] <;> norm_num

set_option maxHeartbeats 4000000 in
/-- C6 (amended): the Analysis Worker's aggregate is a weighted mean over
the present indicators with all weights equal to 1 (an unweighted mean, not
a strictly ordered table), while the one-shot session scorer uses the fixed
table symmetry 2.5 > eye-level 1.5 > skin texture = eye fatigue = estimated
stress = 1.0 — eye fatigue and skin texture are tied, and golden-ratio
harmony is not among the session weights at all. -/
theorem aggregate_weight_tables :
    (∀ health : HealthData,
      calculate_health_score_raw health =
        wMeanOverPresent (fun _ => 1) health) ∧
    (session_weight .facialSymmetry > session_weight .eyesLevelSymmetry ∧
     session_weight .eyesLevelSymmetry > session_weight .eyeFatigue ∧
     session_weight .eyeFatigue = session_weight .skinTexture ∧
     session_weight .skinTexture = session_weight .estimatedStressLevel) ∧
    (∀ (health : SessionHealth) (r : ℚ),
      (session_score_aux health).2 ≠ 0 →
      session_score_raw health r = sessWMean session_weight health) := by
  refine ⟨?_, ⟨by norm_num [session_weight], by norm_num [session_weight],
    by norm_num [session_weight], by norm_num [session_weight]⟩, ?_⟩
  · intro health
    obtain ⟨fs, es, ef, st, gh⟩ := health
    cases fs <;> cases es <;> cases ef <;> cases st <;> cases gh <;>
      simp [calculate_health_score_raw, calculate_health_score_aux,
        wMeanOverPresent, rtMetricList, rtSubscore] <;>
      try ring
  · intro health r hc
    have haux := session_aux_eq health
    have hge := session_components_ge_one health hc
    simp only [session_score_raw]
    rw [if_neg hc, if_neg hc, max_eq_right hge, haux.1, haux.2]
    rfl

/-- Witness for C6 amended: the session scorer on a dictionary containing
only facial symmetry 0.8 equals the weighted mean under the session weight
table. -/
theorem aggregate_weight_tables_witness :
    (session_score_aux ⟨some (4/5), none, none, none, none⟩).2 ≠ 0 ∧
    session_score_raw ⟨some (4/5), none, none, none, none⟩ 0 =
      sessWMean session_weight ⟨some (4/5), none, none, none, none⟩ :=
  ⟨by norm_num [session_score_aux],
   aggregate_weight_tables.2.2 ⟨some (4/5), none, none, none, none⟩ 0
     (by norm_num [session_score_aux])⟩

/-- A session `health_data` containing none of the scored indicators. -/
def allNoneSession : SessionHealth := ⟨none, none, none, none, none⟩

/-- Counterexample to C10 as stated: the reported `health_score` is the raw
fallback score rounded to one decimal, so it does not always lie in
`[70, 90)`: the admissible draw `r = 0.9999` gives raw score 89.998, which
rounds to exactly 90.0. -/
theorem fallback_score_reaches_90_counterexample :
    (0 ≤ (9999:ℚ)/10000 ∧ (9999:ℚ)/10000 < 1) ∧
    (session_score_aux allNoneSession).2 = 0 ∧
    session_health_score allNoneSession (9999/10000) = 90 ∧
    ¬ session_health_score allNoneSession (9999/10000) < 90 := by
  have hraw : session_score_raw allNoneSession (9999/10000) = 44999/500 := by
    norm_num [session_score_raw, session_score_aux, allNoneSession]
  have hfl : ⌊(10:ℚ) * (44999/500)⌋ = 899 := by
    norm_num [Int.floor_eq_iff]
  have hscore : session_health_score allNoneSession (9999/10000) = 90 := by
    rw [session_health_score, hraw, round1]
    have hre : pyRoundEven ((10:ℚ) * (44999/500)) = 900 := by
      unfold pyRoundEven
      rw [hfl]
      norm_num
    rw [hre]
    norm_num
  exact ⟨⟨by norm_num, by norm_num⟩,
    by norm_num [session_score_aux, allNoneSession],
    hscore, by rw [hscore]; exact lt_irrefl _⟩

/-- C10 (amended): when the countdown analysis produced none of the scored
indicators (`components == 0`), the fabricated raw score `70 + r·20` lies in
`[70, 90)` for every admissible draw `r ∈ [0, 1)`; the reported
`health_score` (rounded to one decimal) lies in `[70, 90]` — it can equal
90.0 for draws at least 0.9975 — and the reported status is always
`"Excellent"` on the nominally 0-10 scale. -/
theorem fallback_random_score_always_excellent (health : SessionHealth)
    (r : ℚ) (h0 : 0 ≤ r) (h1 : r < 1)
    (hc : (session_score_aux health).2 = 0) :
    70 ≤ session_score_raw health r ∧ session_score_raw health r < 90 ∧
    70 ≤ session_health_score health r ∧
    session_health_score health r ≤ 90 ∧
    health_status_of (session_health_score health r) = "Excellent" := by
  have hraw : session_score_raw health r = 70 + r * 20 := by
    simp only [session_score_raw]
    rw [if_pos hc, if_pos hc]
    norm_num
  have hub : r * 20 < 20 := by nlinarith
  have hlb : 0 ≤ r * 20 := by positivity
  have hge : (70:ℚ) ≤ session_score_raw health r := by
    rw [hraw]
    linarith
  have hlt : session_score_raw health r < 90 := by
    rw [hraw]
    linarith
  have hrge : (70:ℚ) ≤ session_health_score health r := by
    have := round1_ge (session_score_raw health r) 70 (by exact_mod_cast hge)
    exact_mod_cast this
  have hrle : session_health_score health r ≤ 90 := by
    have := round1_le (session_score_raw health r) 90 (by exact_mod_cast hlt)
    exact_mod_cast this
  refine ⟨hge, hlt, hrge, hrle, ?_⟩
  unfold health_status_of
  rw [if_pos (by linarith)]

/-- Witness for C10 amended at the empty indicator set and `r = 1/2`. -/
theorem fallback_random_score_always_excellent_witness :
    ((0:ℚ) ≤ 1/2 ∧ (1:ℚ)/2 < 1 ∧ (session_score_aux allNoneSession).2 = 0) ∧
    health_status_of (session_health_score allNoneSession (1/2)) =
      "Excellent" :=
  ⟨⟨by norm_num, by norm_num,
    by norm_num [session_score_aux, allNoneSession]⟩,
   (fallback_random_score_always_excellent allNoneSession (1/2) (by norm_num)
     (by norm_num)
     (by norm_num [session_score_aux, allNoneSession])).2.2.2.2⟩
